import Mathlib

/-!
Shallow embedding of the `intake-document` element-extraction / rendering core
(`src/intake_document/ocr/extraction.py`, `src/intake_document/renderer.py`,
`src/intake_document/processor.py`) together with theorems settling the
specification claims about it.

Python strings are modelled as Lean `String` / `List Char`; the regular
expressions used by the scanner are small and anchored, and are translated
into explicit character-list matchers (the translation of each regex is
justified in the doc comment of the corresponding matcher).  ASCII is assumed
for case folding and digit classification (the source relies on Python's
Unicode-aware `str.lower` / `\d`, but every claim is about ASCII data).
-/

namespace IntakeDoc

/-- Python whitespace predicate for `str.strip` / regex `\s` (ASCII range). -/
def isSpace (c : Char) : Bool :=
  c = ' ' || c = '\t' || c = '\n' || c = '\r' || c = '\x0b' || c = '\x0c'

/-- Python `str.strip()` on a character list: drop whitespace from both ends. -/
def pyStripL (cs : List Char) : List Char :=
  ((cs.dropWhile isSpace).reverse.dropWhile isSpace).reverse

/-- Python `str.rstrip()` on a character list. -/
def pyRstripL (cs : List Char) : List Char :=
  (cs.reverse.dropWhile isSpace).reverse

/-- Python `str.lower()` per character (ASCII range). -/
def pyLower (c : Char) : Char :=
  if 'A' ≤ c ∧ c ≤ 'Z' then Char.ofNat (c.toNat + 32) else c

/-- Python `s.split(sep)` for a one-character separator.
`"".split(sep) = [""]` and separators at the ends produce empty pieces,
exactly as in Python. -/
def splitOnChar (sep : Char) : List Char → List (List Char)
  | [] => [[]]
  | c :: cs =>
    let r := splitOnChar sep cs
    if c = sep then [] :: r
    else
      match r with
      | [] => [[c]]
      | h :: t => (c :: h) :: t

/-- Python `needle in hay` substring test. -/
def containsSub (hay needle : List Char) : Bool :=
  if needle.isPrefixOf hay then true
  else
    match hay with
    | [] => false
    | _ :: t => containsSub t needle

/-- Split a list at the first occurrence of `sep`; `none` if absent.
Used to model lazy regex groups ending at the first closing delimiter. -/
def splitAtFirst (sep : Char) : List Char → Option (List Char × List Char)
  | [] => none
  | c :: cs =>
    if c = sep then some ([], cs)
    else (splitAtFirst sep cs).map (fun p => (c :: p.1, p.2))

/-- Model of `re.sub(r"^.*/", "", s)`: greedy `.*` reaches the last `/`, so
the substitution keeps exactly the suffix after the last slash. -/
def afterLastSlash (cs : List Char) : List Char :=
  (cs.reverse.takeWhile (fun c => c ≠ '/')).reverse

/-- Untyped element descriptors produced by
`ElementExtractor.extract_elements_from_text` (the string-keyed dicts of the
Python source, as a closed sum). -/
inductive Descriptor
  | paragraph (content : String)
  | heading (level : Nat) (content : String)
  | listItem (content : String)
  | table (headers : List String) (rows : List (List String))
  | image (id : String) (caption : String)
deriving DecidableEq

/-! ## Line matchers (regexes of `extraction.py`) -/

/-- Matcher for `re.match(r"^(#{1,6})\s+(.+)$", line)`.
The greedy `#` block forces the match to fail when more than six leading `#`
are present (backtracking cannot help: the following char is another `#`,
never `\s`); the `\s+(.+)$` tail matches iff the remainder after the `#` run
has length at least two and starts with whitespace, and
`group(2).strip()` equals the stripped remainder. -/
def headingMatch (cs : List Char) : Option (Nat × String) :=
  let n := (cs.takeWhile (fun c => c = '#')).length
  match cs.dropWhile (fun c => c = '#') with
  | c :: d :: rest =>
    if 1 ≤ n ∧ n ≤ 6 ∧ isSpace c then some (n, ⟨pyStripL (c :: d :: rest)⟩) else none
  | _ => none

/-- Matcher for `re.match(r"^[-*]\s+(.+)$", line)` with `group(1).strip()`. -/
def ulistMatch (cs : List Char) : Option String :=
  match cs with
  | c :: d :: e :: rest =>
    if (c = '-' ∨ c = '*') ∧ isSpace d then some ⟨pyStripL (d :: e :: rest)⟩ else none
  | _ => none

/-- Matcher for `re.match(r"^(\d+\.)\s+(.+)$", line)` with `group(2).strip()`. -/
def olistMatch (cs : List Char) : Option String :=
  let n := (cs.takeWhile Char.isDigit).length
  match cs.dropWhile Char.isDigit with
  | '.' :: d :: e :: rest =>
    if 1 ≤ n ∧ isSpace d then some ⟨pyStripL (d :: e :: rest)⟩ else none
  | _ => none

/-- The two list-item checks of `_try_extract_list_item`, unordered first. -/
def listItemMatch (cs : List Char) : Option String :=
  match ulistMatch cs with
  | some s => some s
  | none => olistMatch cs

/-- Matcher for `re.match(r"^\|(.+)\|$", line)` (as a Boolean): first and last
characters are `|` with a non-empty interior. -/
def isTableLine (cs : List Char) : Bool :=
  3 ≤ cs.length && cs.head? == some '|' && cs.getLast? == some '|'

/-- Cell extraction used for both header and data rows:
`[cell.strip() for cell in line[1:-1].split("|")]`. -/
def tableCells (cs : List Char) : List String :=
  (splitOnChar '|' (cs.drop 1).dropLast).map (fun c => (⟨pyStripL c⟩ : String))

/-- Markdown separator-row cell test:
`cell == "" or re.match(r"^[-:]+$", cell)`, i.e. every character of the cell
is `-` or `:` (vacuously true for the empty cell). -/
def isSepCell (s : String) : Bool :=
  s.toList.all (fun c => c = '-' || c = ':')

/-- Scanner for the image regex tail after the literal `![`: the lazy groups
of `!\[(.*?)\]\((.*?)\)` select the first position where `](` occurs with a
later `)`, the caption being everything before that `](` and the url the
characters up to the first following `)`. -/
def imageScan : List Char → Option (List Char × List Char)
  | [] => none
  | c :: rest =>
    if c = ']' then
      match rest with
      | '(' :: rest2 =>
        match splitAtFirst ')' rest2 with
        | some (url, _) => some ([], url)
        | none => (imageScan rest).map (fun p => (']' :: p.1, p.2))
      | _ => (imageScan rest).map (fun p => (']' :: p.1, p.2))
    else (imageScan rest).map (fun p => (c :: p.1, p.2))

/-- Matcher for `re.match(r"!\[(.*?)\]\((.*?)\)", line)` (prefix match, not
anchored at the end).  Returns `(caption, url)`. -/
def imageMatch (cs : List Char) : Option (List Char × List Char) :=
  match cs with
  | '!' :: '[' :: rest => imageScan rest
  | _ => none

/-- Derivation of the image id in `_try_extract_image`:
`re.sub(r"^.*/", "", image_url.split(".")[0])`. -/
def imageIdOf (url : List Char) : String :=
  ⟨afterLastSlash ((splitOnChar '.' url).headD [])⟩

/-! ## The line scanner `_process_lines` -/

/-- Result quadruple of `ElementExtractor._process_table_line`. -/
structure TableStep where
  inTable : Bool
  headers : List String
  rows : List (List String)
  finished : Bool
deriving DecidableEq

/-- Translation of `ElementExtractor._process_table_line`.  Note that the
table-end branch of the source returns `(False, [], [], True)` — the
accumulated headers and rows are cleared in the returned tuple. -/
def processTableLine (line : List Char) (inTable : Bool) (headers : List String)
    (rows : List (List String)) : TableStep :=
  if isTableLine line ∧ ¬ inTable then
    ⟨true, tableCells line, [], false⟩
  else if inTable ∧ isTableLine line then
    let cells := tableCells line
    if cells.all isSepCell then ⟨inTable, headers, rows, false⟩
    else
      let cells :=
        if cells.length ≠ headers.length then
          if cells.length < headers.length then
            cells ++ List.replicate (headers.length - cells.length) ""
          else cells.take headers.length
        else cells
      ⟨inTable, headers, rows ++ [cells], false⟩
  else if inTable then ⟨false, [], [], true⟩
  else ⟨inTable, headers, rows, false⟩

/-- Mutable scan state of `_process_lines`. -/
structure ScanState where
  elements : List Descriptor
  currentText : List Char
  inTable : Bool
  tableHeaders : List String
  tableRows : List (List String)
deriving DecidableEq

/-- Flush of the pending paragraph buffer (`if current_text: append; reset`). -/
def flushPar (st : ScanState) : ScanState :=
  if st.currentText = [] then st
  else
    { st with
      elements := st.elements ++ [.paragraph ⟨st.currentText⟩]
      currentText := [] }

/-- One iteration of the `for line in lines` loop of `_process_lines`,
including the `line = line.strip()` at the top. -/
def stepLine (st : ScanState) (rawLine : List Char) : ScanState :=
  let line := pyStripL rawLine
  if line = [] then flushPar st
  else
    match headingMatch line with
    | some (lvl, content) =>
      let st := flushPar st
      { st with elements := st.elements ++ [.heading lvl content] }
    | none =>
      match listItemMatch line with
      | some content =>
        let st := flushPar st
        { st with elements := st.elements ++ [.listItem content] }
      | none =>
        let r := processTableLine line st.inTable st.tableHeaders st.tableRows
        if r.finished ∧ st.currentText ≠ [] then
          { elements := st.elements ++ [.paragraph ⟨st.currentText⟩]
            currentText := []
            inTable := r.inTable
            tableHeaders := r.headers
            tableRows := r.rows }
        else if r.inTable then
          { elements :=
              if st.currentText ≠ [] then st.elements ++ [.paragraph ⟨st.currentText⟩]
              else st.elements
            currentText := []
            inTable := r.inTable
            tableHeaders := r.headers
            tableRows := r.rows }
        else if r.finished then
          { st with
            elements := st.elements ++ [.table r.headers r.rows]
            inTable := r.inTable
            tableHeaders := r.headers
            tableRows := r.rows }
        else
          match imageMatch line with
          | some (cap, url) =>
            let st := flushPar
              { st with inTable := r.inTable, tableHeaders := r.headers, tableRows := r.rows }
            { st with elements := st.elements ++ [.image (imageIdOf url) ⟨cap⟩] }
          | none =>
            { st with
              inTable := r.inTable
              tableHeaders := r.headers
              tableRows := r.rows
              currentText :=
                if st.currentText = [] then line else st.currentText ++ ' ' :: line }

/-- Initial state of the scan (`current_text = ""`, `in_table = False`). -/
def initScan : ScanState := ⟨[], [], false, [], []⟩

/-- The loop of `_process_lines` over all lines. -/
def runLines (lines : List (List Char)) : ScanState :=
  lines.foldl stepLine initScan

/-- End-of-input handling of `_process_lines`: flush the pending paragraph,
then emit a still-open table when both headers and rows are non-empty. -/
def finishScan (st : ScanState) : List Descriptor :=
  let els :=
    if st.currentText ≠ [] then st.elements ++ [.paragraph ⟨st.currentText⟩]
    else st.elements
  if st.inTable ∧ st.tableHeaders ≠ [] ∧ st.tableRows ≠ [] then
    els ++ [.table st.tableHeaders st.tableRows]
  else els

/-- Whole of `ElementExtractor._process_lines`. -/
def processLines (lines : List (List Char)) : List Descriptor :=
  finishScan (runLines lines)

/-- Translation of `ElementExtractor.extract_elements_from_text`.  The
`try/except` wrapper of the source is not represented: every operation inside
the `try` block is total in this model (no sub-call raises), so the
`except` fallback is unreachable.  Raising `OCRTextExtractionError` is
modelled as `Except.error` carrying the message. -/
def extract_elements_from_text (text : String) : Except String (List Descriptor) :=
  let cs := text.toList
  if text.length < 10 then .error "Text too short for meaningful extraction"
  else
    let lines := splitOnChar '\n' cs
    if lines.length = 1 ∧ cs.any (fun c => c = '#' || c = '|' || c = '-' || c = '*') = false then
      .ok [.paragraph ⟨pyStripL cs⟩]
    else
      let low := cs.map pyLower
      if containsSub low "unable to".toList && containsSub low "process".toList &&
          containsSub low "file".toList then
        .ok [.paragraph ("# " ++ (⟨pyStripL cs⟩ : String))]
      else
        let els := processLines lines
        if els ≠ [] then .ok els
        else if pyStripL cs ≠ [] then .ok [.paragraph ⟨pyStripL cs⟩]
        else .error "No elements could be extracted"

/-! ## Table orientation corrector -/

/-- Translation of `ElementExtractor.fix_table_orientation`.  In the
transpose branch the source guard `if i < len(headers)` inside
`for i in range(1, num_cols)` is always true (`num_cols = len(headers)`) and
is therefore omitted; `row[i] if i < len(row) else ""` is `List.getD`. -/
def fix_table_orientation (headers : List String) (rows : List (List String)) :
    List String × List (List String) :=
  if rows = [] then (headers, rows)
  else
    let num_cols := headers.length
    let num_rows := rows.length
    if num_cols ≤ 10 ∨ num_rows ≥ num_cols then (headers, rows)
    else
      let transposedHeaders :=
        (List.range num_rows).map (fun i => "Column " ++ toString (i + 1))
      let firstRow :=
        headers.headD "" :: (rows.filter (fun r => !r.isEmpty)).map (fun r => r.headD "")
      let restRows :=
        ((List.range num_cols).drop 1).map
          (fun i => headers.getD i "" :: rows.map (fun r => r.getD i ""))
      (transposedHeaders, firstRow :: restRows)

/-! ## Typed data model (`models/document.py`) -/

/-- Typed document elements (`TextElement` / `TableElement` / `ImageElement`),
as a closed sum discriminated like the `isinstance` dispatch of the renderer.
The `element_index` bookkeeping field plays no role in any claim and is
omitted. -/
inductive Element
  | text (content : String) (level : Option Int) (isListItem : Bool)
  | table (headers : List String) (rows : List (List String))
  | image (imageId : String) (caption : Option String)
deriving DecidableEq

/-- The `Document` pydantic model; `processed_at` is abstracted to a `Nat`
timestamp. -/
structure Document where
  checksum : String
  elements : List Element
  markdown : Option String
  processedAt : Nat
deriving DecidableEq

/-! ## Markdown renderer (`renderer.py`) -/

/-- Python `cell.replace("|", "\\|")` of `_render_table_element`. -/
def escapeCell (s : String) : String :=
  ⟨s.toList.foldr (fun c acc => if c = '|' then '\\' :: '|' :: acc else c :: acc) []⟩

/-- The row-repair loop of `_render_table_element`.  Rows shorter than the
header count are padded in place via `row.extend(...)`; the truncation branch
of the source (`row = row[:len(headers)]`) rebinds the loop variable and has
no effect on `element.rows`, so longer rows pass through unchanged. -/
def repairRow (headers row : List String) : List String :=
  if row.length < headers.length then
    row ++ List.replicate (headers.length - row.length) ""
  else row

/-- Translation of `MarkdownRenderer._render_text_element`. -/
def renderTextElement (content : String) (level : Option Int) (isListItem : Bool) : String :=
  if content = "" then ""
  else
    match level with
    | some l =>
      if 1 ≤ l ∧ l ≤ 6 then ⟨List.replicate l.toNat '#'⟩ ++ " " ++ content
      else content
    | none => if isListItem then "- " ++ content else content

/-- Markdown table assembly of `_render_table_element` (header row, separator
row, data rows, then `rstrip()` of the final string). -/
def renderTableString (headers : List String) (rows : List (List String)) : String :=
  let md := "| " ++ String.intercalate " | " headers ++ " |\n"
  let md := md ++ "| " ++ String.intercalate " | " (List.replicate headers.length "---") ++ " |\n"
  let md := md ++ String.join (rows.map
    (fun r => "| " ++ String.intercalate " | " (r.map escapeCell) ++ " |\n"))
  ⟨pyRstripL md.toList⟩

/-- Translation of `MarkdownRenderer._render_image_element`; the error value
is `str(e)` of the raised `RenderError`. -/
def renderImageElement (imageId : String) (caption : Option String) : Except String String :=
  if imageId = "" then .error "Image element missing image_id"
  else
    let alt :=
      match caption with
      | some c => if c = "" then "Image" else c
      | none => "Image"
    .ok ("![" ++ alt ++ "](images/" ++ imageId ++ ".png)")

/-- Per-element rendering as dispatched in the loop of `render_markdown`.
The result also carries the element as it stands after rendering, because the
row-repair loop of `_render_table_element` pads `element.rows` in place (the
mutation is visible to the caller through `document.elements`). -/
def renderElement : Element → Except String (String × Element)
  | .text content level isListItem =>
    .ok (renderTextElement content level isListItem, .text content level isListItem)
  | .table headers rows =>
    if headers = [] then .error "Table has no headers"
    else
      let rows := rows.map (repairRow headers)
      .ok (renderTableString headers rows, .table headers rows)
  | .image imageId caption =>
    (renderImageElement imageId caption).map (fun s => (s, .image imageId caption))

/-- One iteration of the rendering loop of `render_markdown`: prepend the
blank-line separator when output already exists, then either append the
rendered element or, when the element raised, the substituted HTML comment
(with the raised message as `str(e)`). -/
def renderStep (acc : String × List Element) (e : Element) : String × List Element :=
  let md := if acc.1 ≠ "" then acc.1 ++ "\n\n" else acc.1
  match renderElement e with
  | .ok (s, e2) => (md ++ s, acc.2 ++ [e2])
  | .error msg =>
    (md ++ "\n\n<!-- Error rendering element: " ++ msg ++ " -->\n\n", acc.2 ++ [e])

/-- Translation of `MarkdownRenderer.render_markdown` minus its outer
`try/except`: the body processes the elements (each element wrapped in its
own exception handler, represented by `renderStep`) and stores the result in
`document.markdown`.  An empty element list only logs a warning in the source
and falls through to `document.markdown = ""`. -/
def renderMarkdown (d : Document) : Document :=
  let r := d.elements.foldl renderStep ("", [])
  { d with markdown := some r.1, elements := r.2 }

/-- The `Except`-valued view of `render_markdown` including its outer
`try/except Exception ... raise RenderError`.  Every statement of the body is
total in this model (all per-element exceptions are caught inside the loop
and nothing after the loop can raise), so the outer handler is unreachable
and the function always returns `ok`. -/
def renderMarkdownE (d : Document) : Except String Document :=
  .ok (renderMarkdown d)

/-- The element as it stands after the rendering loop visited it: a table
with non-empty headers has had its short rows padded in place; every other
element (including the two per-element error cases) is unchanged. -/
def postElem (e : Element) : Element :=
  match renderElement e with
  | .ok (_, e2) => e2
  | .error _ => e

/-- Condition under which the rendering loop leaves an element untouched:
no table row is shorter than the header row. -/
def noShortRows : Element → Bool
  | .table hs rs => rs.all (fun r => hs.length ≤ r.length)
  | _ => true

/-! ## Document processor cache (`processor.py`) -/

/-- Lookup in the `checksum → Document` dict `_processed_documents`. -/
def lookupCache (cache : List (String × Document)) (c : String) : Option Document :=
  match cache with
  | [] => none
  | (k, d) :: t => if k = c then some d else lookupCache t c

/-- Observable state of one `DocumentProcessor`: the cache, the sequence of
checksums sent to the OCR client, and the sequence of output-file writes
(checksum of the source paired with the markdown written). -/
structure ProcState where
  cache : List (String × Document)
  ocrLog : List String
  writeLog : List (String × Option String)
deriving DecidableEq

/-- Fresh processor: empty cache, no OCR calls, no writes. -/
def procInit : ProcState := ⟨[], [], []⟩

/-- Translation of the cache-relevant core of `DocumentProcessor.process_file`
(lines 130-160): on a cache hit the stored `Document` is reused (no OCR, no
rendering) and the output file is still written; on a miss the OCR client is
invoked, the result rendered, cached, and written.  The OCR round-trip is
abstracted as a pure oracle from the file checksum (`process_document` is an
external API call), and file-path handling is dropped: the write log records
the checksum and the markdown written. -/
def process_file (ocr : String → Document) (checksum : String) (st : ProcState) :
    Document × ProcState :=
  match lookupCache st.cache checksum with
  | some document =>
    (document, { st with writeLog := st.writeLog ++ [(checksum, document.markdown)] })
  | none =>
    let document := renderMarkdown (ocr checksum)
    (document,
      { cache := st.cache ++ [(checksum, document)]
        ocrLog := st.ocrLog ++ [checksum]
        writeLog := st.writeLog ++ [(checksum, document.markdown)] })

/-- A sequence of `process_file` calls on the same processor. -/
def processAll (ocr : String → Document) (checksums : List String) (st : ProcState) :
    ProcState :=
  checksums.foldl (fun s c => (process_file ocr c s).2) st

/-- Decidable equality for `Except`, so that concrete extraction results can
be compared by `decide`. -/
instance {ε α : Type} [DecidableEq ε] [DecidableEq α] : DecidableEq (Except ε α) :=
  fun a b =>
    match a, b with
    | .ok x, .ok y =>
      if h : x = y then .isTrue (by rw [h]) else .isFalse (fun hh => h (Except.ok.inj hh))
    | .error x, .error y =>
      if h : x = y then .isTrue (by rw [h]) else .isFalse (fun hh => h (Except.error.inj hh))
    | .ok _, .error _ => .isFalse (fun hh => Except.noConfusion hh)
    | .error _, .ok _ => .isFalse (fun hh => Except.noConfusion hh)

/-! ## Helper lemmas -/

/-- A list is unaffected by `str.strip()` modelling iff nothing remains when
it is all whitespace. -/
theorem pyStripL_eq_nil {cs : List Char} (h : ∀ c ∈ cs, isSpace c = true) :
    pyStripL cs = [] := by
  unfold pyStripL
  have h1 : cs.dropWhile isSpace = [] := List.dropWhile_eq_nil_iff.mpr h
  simp [h1]

/-- Conversely, a list whose strip is empty consists of whitespace only. -/
theorem all_space_of_pyStripL_nil {cs : List Char} (h : pyStripL cs = []) :
    ∀ c ∈ cs, isSpace c = true := by
  unfold pyStripL at h
  rw [List.reverse_eq_nil_iff, List.dropWhile_eq_nil_iff] at h
  intro c hc
  by_cases hsp : isSpace c = true
  · exact hsp
  · exfalso
    have hsplit := List.takeWhile_append_dropWhile (p := isSpace) (l := cs)
    rcases List.mem_append.mp (by rw [hsplit]; exact hc) with h1 | h2
    · exact hsp (List.mem_takeWhile_imp h1)
    · exact hsp (h c (by simpa using h2))

/-- Characters of any piece of `splitOnChar` come from the original list. -/
theorem mem_of_mem_splitOnChar {sep : Char} {cs l : List Char} {c : Char}
    (hl : l ∈ splitOnChar sep cs) (hc : c ∈ l) : c ∈ cs := by
  induction cs generalizing l with
  | nil =>
    simp only [splitOnChar, List.mem_singleton] at hl
    subst hl; simp at hc
  | cons a t ih =>
    simp only [splitOnChar] at hl
    by_cases ha : a = sep
    · rw [if_pos ha] at hl
      rcases List.mem_cons.mp hl with hl | hl
      · subst hl; simp at hc
      · exact List.mem_cons_of_mem _ (ih hl hc)
    · rw [if_neg ha] at hl
      cases hr : splitOnChar sep t with
      | nil =>
        rw [hr] at hl
        simp only [List.mem_singleton] at hl
        subst hl
        simp only [List.mem_singleton] at hc
        rw [hc]; exact List.mem_cons_self _ _
      | cons h2 t2 =>
        rw [hr] at hl
        rcases List.mem_cons.mp hl with hl | hl
        · subst hl
          rcases List.mem_cons.mp hc with hc | hc
          · rw [hc]; exact List.mem_cons_self _ _
          · exact List.mem_cons_of_mem _ (ih (l := h2) (by rw [hr]; exact List.mem_cons_self h2 t2) hc)
        · exact List.mem_cons_of_mem _ (ih (by rw [hr]; exact List.mem_cons_of_mem _ hl) hc)

/-- `str.lower` fixes whitespace characters. -/
theorem pyLower_space {c : Char} (h : isSpace c = true) : pyLower c = c := by
  simp only [isSpace, Bool.or_eq_true, decide_eq_true_eq] at h
  rcases h with (((((h | h) | h) | h) | h) | h) <;> subst h <;> decide

/-- A substring whose first character is not whitespace never occurs in an
all-whitespace string. -/
theorem containsSub_space_false {hay : List Char} {n : Char} {r : List Char}
    (hh : ∀ c ∈ hay, isSpace c = true) (hn : isSpace n = false) :
    containsSub hay (n :: r) = false := by
  induction hay with
  | nil => rfl
  | cons a t ih =>
    have ha := hh a (List.mem_cons_self a t)
    have hna : (n == a) = false := by
      rw [beq_eq_false_iff_ne]
      intro e; rw [e, ha] at hn; cases hn
    have hpre : (n :: r).isPrefixOf (a :: t) = false := by
      simp [List.isPrefixOf, hna]
    rw [containsSub, hpre]
    simpa using ih (fun c hc => hh c (List.mem_cons_of_mem _ hc))

/-- A line that strips to nothing leaves a state with no pending paragraph
unchanged (the blank-line branch only flushes). -/
theorem stepLine_blank {st : ScanState} {l : List Char} (h : pyStripL l = [])
    (hcur : st.currentText = []) : stepLine st l = st := by
  simp [stepLine, h, flushPar, hcur]

/-- Scanning lines that all strip to nothing never leaves the initial state. -/
theorem runLines_all_blank :
    ∀ lines : List (List Char), (∀ l ∈ lines, pyStripL l = []) → runLines lines = initScan := by
  intro lines
  induction lines with
  | nil => intro _; rfl
  | cons a t ih =>
    intro h
    unfold runLines at ih ⊢
    rw [List.foldl_cons, stepLine_blank (h a (List.mem_cons_self a t)) rfl]
    exact ih (fun l hl => h l (List.mem_cons_of_mem a hl))

/-- The element list threaded through the rendering loop is the input list
with every element replaced by its post-rendering form. -/
theorem foldl_renderStep_snd (l : List Element) (acc : String × List Element) :
    (l.foldl renderStep acc).2 = acc.2 ++ l.map postElem := by
  induction l generalizing acc with
  | nil => simp
  | cons e t ih =>
    rw [List.foldl_cons, ih]
    have h : (renderStep acc e).2 = acc.2 ++ [postElem e] := by
      simp only [renderStep, postElem]
      cases h : renderElement e with
      | ok p => obtain ⟨s, e2⟩ := p; simp
      | error msg => simp
    rw [h, List.map_cons]
    simp

/-- Elements without short table rows pass through rendering untouched. -/
theorem postElem_eq_self {e : Element} (h : noShortRows e = true) : postElem e = e := by
  cases e with
  | text content level isListItem => rfl
  | image imageId caption =>
    simp only [postElem, renderElement, renderImageElement]
    by_cases hid : imageId = "" <;> simp [hid, Except.map]
  | table headers rows =>
    simp only [noShortRows, List.all_eq_true, decide_eq_true_eq] at h
    simp only [postElem, renderElement]
    by_cases hh : headers = []
    · simp [hh]
    · rw [if_neg hh]
      have hrows : rows.map (repairRow headers) = rows := by
        have hr : ∀ r ∈ rows, repairRow headers r = id r := by
          intro r hrm
          unfold repairRow
          rw [if_neg (Nat.not_lt.mpr (h r hrm))]
          rfl
        rw [List.map_congr_left hr, List.map_id]
      simp [hrows]

/-- A cache hit survives appending further entries (the dict is modelled as
an association list where the first binding wins, and `process_file` only
ever appends fresh keys). -/
theorem lookupCache_append_some {l : List (String × Document)} {c : String} {d : Document}
    (h : lookupCache l c = some d) (l2 : List (String × Document)) :
    lookupCache (l ++ l2) c = some d := by
  induction l with
  | nil => simp [lookupCache] at h
  | cons a t ih =>
    obtain ⟨k, v⟩ := a
    rw [List.cons_append]
    unfold lookupCache at h ⊢
    by_cases hk : k = c
    · rw [if_pos hk] at h ⊢; exact h
    · rw [if_neg hk] at h ⊢; exact ih h

/-- On a missing key, lookup in an extended cache falls through to the
appended entries. -/
theorem lookupCache_append_none {l : List (String × Document)} {c : String}
    (h : lookupCache l c = none) (l2 : List (String × Document)) :
    lookupCache (l ++ l2) c = lookupCache l2 c := by
  induction l with
  | nil => simp
  | cons a t ih =>
    obtain ⟨k, v⟩ := a
    rw [List.cons_append]
    by_cases hk : k = c
    · unfold lookupCache at h; rw [if_pos hk] at h; cases h
    · show (if k = c then some v else lookupCache (t ++ l2) c) = lookupCache l2 c
      unfold lookupCache at h
      rw [if_neg hk] at h
      rw [if_neg hk]
      exact ih h

/-- Invariant of the processor state: the OCR client was called exactly once
per cached checksum — the call log is duplicate-free and mirrors the cache
keys. -/
def cacheInv (st : ProcState) : Prop :=
  st.ocrLog.Nodup ∧ ∀ c, c ∈ st.ocrLog ↔ (lookupCache st.cache c).isSome = true

/-- One `process_file` call preserves the cache invariant. -/
theorem process_file_inv (ocr : String → Document) (c : String) {st : ProcState}
    (h : cacheInv st) : cacheInv (process_file ocr c st).2 := by
  obtain ⟨hnd, hiff⟩ := h
  unfold process_file
  cases hl : lookupCache st.cache c with
  | some d => exact ⟨hnd, hiff⟩
  | none =>
    constructor
    · have hc : c ∉ st.ocrLog := by
        intro hm
        have := (hiff c).mp hm
        rw [hl] at this
        cases this
      simp [List.nodup_append, hnd, hc]
    · intro c2
      simp only [List.mem_append, List.mem_singleton]
      by_cases hc2 : c2 = c
      · subst hc2
        rw [lookupCache_append_none hl]
        simp [lookupCache]
      · constructor
        · intro hm
          rcases hm with hm | hm
          · have := (hiff c2).mp hm
            cases hlk : lookupCache st.cache c2 with
            | some d2 =>
              rw [lookupCache_append_some hlk]; rfl
            | none => rw [hlk] at this; cases this
          · exact absurd hm hc2
        · intro hs
          cases hlk : lookupCache st.cache c2 with
          | some d2 => exact Or.inl ((hiff c2).mpr (by rw [hlk]; rfl))
          | none =>
            rw [lookupCache_append_none hlk] at hs
            simp only [lookupCache] at hs
            rw [if_neg (fun e => hc2 e.symm)] at hs
            cases hs

/-- The cache invariant holds along any sequence of calls. -/
theorem processAll_inv (ocr : String → Document) (cs : List String) {st : ProcState}
    (h : cacheInv st) : cacheInv (processAll ocr cs st) := by
  induction cs generalizing st with
  | nil => exact h
  | cons a t ih => exact ih (process_file_inv ocr a h)

/-- The fresh processor satisfies the invariant. -/
theorem procInit_inv : cacheInv procInit := by
  constructor
  · exact List.nodup_nil
  · intro c; simp [procInit, lookupCache]

/-- A cached binding is never overwritten by later calls. -/
theorem process_file_cache_mono (ocr : String → Document) (c2 : String) {st : ProcState}
    {c : String} {d : Document} (h : lookupCache st.cache c = some d) :
    lookupCache ((process_file ocr c2 st).2).cache c = some d := by
  unfold process_file
  cases hl : lookupCache st.cache c2 with
  | some d2 => exact h
  | none => exact lookupCache_append_some h _

/-- A cached binding is never overwritten by any sequence of later calls. -/
theorem processAll_cache_mono (ocr : String → Document) (cs : List String) {st : ProcState}
    {c : String} {d : Document} (h : lookupCache st.cache c = some d) :
    lookupCache (processAll ocr cs st).cache c = some d := by
  induction cs generalizing st with
  | nil => exact h
  | cons a t ih => exact ih (process_file_cache_mono ocr a h)

/-- Directly after `process_file` on checksum `c`, some document is cached
under `c`. -/
theorem process_file_caches_self (ocr : String → Document) (c : String) (st : ProcState) :
    ∃ d, lookupCache ((process_file ocr c st).2).cache c = some d := by
  unfold process_file
  cases hl : lookupCache st.cache c with
  | some d => exact ⟨d, hl⟩
  | none =>
    refine ⟨renderMarkdown (ocr c), ?_⟩
    rw [lookupCache_append_none hl]
    simp [lookupCache]

/-- Every checksum already processed is present in the cache. -/
theorem processed_is_cached (ocr : String → Document) {cs : List String} {c : String}
    (hc : c ∈ cs) : ∀ st, ∃ d, lookupCache (processAll ocr cs st).cache c = some d := by
  induction cs with
  | nil => cases hc
  | cons a t ih =>
    intro st
    rcases List.mem_cons.mp hc with hca | hct
    · subst hca
      obtain ⟨d, hd⟩ := process_file_caches_self ocr c st
      exact ⟨d, processAll_cache_mono ocr t hd⟩
    · exact ih hct _

/-! ## Claims -/

/-- C1: evaluation of the scanner at a table followed by a terminating text
line.  The claim says the accumulated table (headers A,B and row 1,2) is
emitted and the terminating line re-evaluated as a paragraph; the code
instead emits a table descriptor with cleared headers and rows (the
table-end branch of `_process_table_line` returns the cleared state before
the caller appends it) and discards the terminating line via `continue`. -/
theorem c1_table_end_loses_data :
    extract_elements_from_text "| A | B |\n| 1 | 2 |\nTail paragraph here" =
      .ok [.table [] []] := by rfl

/-- C2: rendering the six-element golden fixture produces exactly the
expected markdown string. -/
theorem c2_golden_render :
    (renderMarkdown
      ⟨"abc123def456",
        [ .text "Sample Document" (some 1) false,
          .text "This is a sample paragraph." none false,
          .text "First item" none true,
          .text "Second item" none true,
          .table ["Column 1", "Column 2"] [["Data 1", "Data 2"], ["Data 3", "Data 4"]],
          .image "img001" (some "A sample image") ],
        none, 0⟩).markdown =
      some "# Sample Document\n\nThis is a sample paragraph.\n\n- First item\n\n- Second item\n\n| Column 1 | Column 2 |\n| --- | --- |\n| Data 1 | Data 2 |\n| Data 3 | Data 4 |\n\n![A sample image](images/img001.png)" := by
  rfl

/-- C3: evaluation of the renderer at a table whose single row is longer
than the header row.  The claim says the row is truncated to the header
count; the code only rebinds the loop variable in the truncation branch, so
the rendered data row keeps both cells (two cells against one header). -/
theorem c3_long_row_not_truncated :
    renderElement (.table ["A"] [["x", "y"]]) =
      .ok ("| A |\n| --- |\n| x | y |", .table ["A"] [["x", "y"]]) ∧
    (repairRow ["A"] ["x", "y"]).length ≠ (["A"] : List String).length := by
  exact ⟨rfl, by decide⟩

/-- C4 counterexample: a document with no elements does not surface a hard
render error — `render_markdown` only logs a warning and returns the
document with empty markdown, contradicting the claim that the no-elements
case surfaces a render error to the caller. -/
theorem c4_counterexample :
    renderMarkdownE ⟨"c", [], none, 0⟩ = .ok ⟨"c", [], some "", 0⟩ := by rfl

/-- C4 amended: a table with empty headers and an image with an empty id
raise element-level render errors (which the rendering loop catches,
substituting an HTML comment), and `render_markdown` itself never raises:
a document with no elements renders successfully to empty markdown. -/
theorem c4_amended (rows : List (List String)) (cap : Option String) (d : Document) :
    renderElement (.table [] rows) = .error "Table has no headers" ∧
    renderElement (.image "" cap) = .error "Image element missing image_id" ∧
    renderMarkdownE d = .ok (renderMarkdown d) := by
  refine ⟨by simp [renderElement], ?_, rfl⟩
  simp [renderElement, renderImageElement, Except.map]

/-- C5 counterexample: a single-line refusal text with no markdown
characters is returned by the single-paragraph short-circuit before the
refusal check runs, so it is not prefixed with the literal heading marker
the claim requires. -/
theorem c5_counterexample :
    extract_elements_from_text "unable to process file" =
      .ok [.paragraph "unable to process file"] ∧
    extract_elements_from_text "unable to process file" ≠
      .ok [.paragraph ("# " ++ (⟨pyStripL "unable to process file".toList⟩ : String))] := by
  exact ⟨rfl, by decide⟩

/-- C5 amended: the refusal handling holds only for inputs that reach the
check — at least ten characters long and not caught by the single-line
short-circuit: such a text containing the three substrings (after
lowercasing) yields exactly one paragraph of the stripped text prefixed with
the heading marker. -/
theorem c5_amended (text : String) (hlen : ¬ text.length < 10)
    (hml : ¬((splitOnChar '\n' text.toList).length = 1 ∧
        text.toList.any (fun c => c = '#' || c = '|' || c = '-' || c = '*') = false))
    (h1 : containsSub (text.toList.map pyLower) "unable to".toList = true)
    (h2 : containsSub (text.toList.map pyLower) "process".toList = true)
    (h3 : containsSub (text.toList.map pyLower) "file".toList = true) :
    extract_elements_from_text text =
      .ok [.paragraph ("# " ++ (⟨pyStripL text.toList⟩ : String))] := by
  simp only [extract_elements_from_text]
  rw [if_neg hlen, if_neg hml, if_pos (by rw [h1, h2, h3]; rfl)]

/-- C5 amended, witness at a concrete two-line refusal text. -/
theorem c5_amended_witness :
    extract_elements_from_text "I am unable to process the file\nPlease retry" =
      .ok [.paragraph ("# " ++
        (⟨pyStripL "I am unable to process the file\nPlease retry".toList⟩ : String))] :=
  c5_amended _ (by decide) (by decide) (by decide) (by decide) (by decide)

/-- C6: any input shorter than the ten-character minimum raises the
text-extraction error. -/
theorem c6_short_text_raises (text : String) (h : text.length < 10) :
    extract_elements_from_text text = .error "Text too short for meaningful extraction" := by
  simp [extract_elements_from_text, h]

/-- C6 witness at the empty string. -/
theorem c6_short_text_raises_witness :
    extract_elements_from_text "" = .error "Text too short for meaningful extraction" :=
  c6_short_text_raises "" (by decide)

/-- C7: the orientation corrector is the identity whenever the table has no
rows, at most ten columns, or at least as many rows as columns. -/
theorem c7_fix_orientation_noop (headers : List String) (rows : List (List String))
    (h : rows = [] ∨ headers.length ≤ 10 ∨ headers.length ≤ rows.length) :
    fix_table_orientation headers rows = (headers, rows) := by
  rcases h with h | h | h
  · simp [fix_table_orientation, h]
  · by_cases hr : rows = []
    · simp [fix_table_orientation, hr]
    · simp [fix_table_orientation, hr, ge_iff_le, h]
  · by_cases hr : rows = []
    · simp [fix_table_orientation, hr]
    · simp [fix_table_orientation, hr, ge_iff_le, h]

/-- C7 witness at a concrete two-column table. -/
theorem c7_fix_orientation_noop_witness :
    fix_table_orientation ["a", "b"] [["x", "y"]] = (["a", "b"], [["x", "y"]]) :=
  c7_fix_orientation_noop ["a", "b"] [["x", "y"]] (by decide)

/-- C8: over any sequence of `process_file` calls on a fresh processor, the
OCR client is invoked at most once per checksum, and a further call with an
already-processed checksum hits the cache: it performs no OCR call and no
rendering (cache and OCR log unchanged), returns the previously computed
document, and still appends the output-file write. -/
theorem c8_cache_hit_no_second_ocr (ocr : String → Document) (cs : List String) (c : String)
    (hc : c ∈ cs) :
    (processAll ocr cs procInit).ocrLog.count c ≤ 1 ∧
    ∃ d, lookupCache (processAll ocr cs procInit).cache c = some d ∧
      process_file ocr c (processAll ocr cs procInit) =
        (d, { processAll ocr cs procInit with
              writeLog := (processAll ocr cs procInit).writeLog ++ [(c, d.markdown)] }) := by
  have hinv := processAll_inv ocr cs procInit_inv
  constructor
  · exact List.nodup_iff_count_le_one.mp hinv.1 c
  · obtain ⟨d, hd⟩ := processed_is_cached ocr hc procInit
    refine ⟨d, hd, ?_⟩
    unfold process_file
    rw [hd]

/-- C8 witness at one concrete checksum processed twice. -/
theorem c8_cache_hit_no_second_ocr_witness :
    (processAll (fun _ => Document.mk "k" [] none 0) ["k"] procInit).ocrLog.count "k" ≤ 1 ∧
    ∃ d, lookupCache
        (processAll (fun _ => Document.mk "k" [] none 0) ["k"] procInit).cache "k" = some d ∧
      process_file (fun _ => Document.mk "k" [] none 0) "k"
          (processAll (fun _ => Document.mk "k" [] none 0) ["k"] procInit) =
        (d, { processAll (fun _ => Document.mk "k" [] none 0) ["k"] procInit with
              writeLog :=
                (processAll (fun _ => Document.mk "k" [] none 0) ["k"] procInit).writeLog ++
                  [("k", d.markdown)] }) :=
  c8_cache_hit_no_second_ocr (fun _ => Document.mk "k" [] none 0) ["k"] "k" (by decide)

/-- C9 counterexample: ten spaces on a single line strip to the empty string
yet extraction does not raise — the single-line short-circuit returns one
paragraph with empty content. -/
theorem c9_counterexample :
    extract_elements_from_text ⟨List.replicate 10 ' '⟩ = .ok [.paragraph ""] ∧
    ∀ msg, extract_elements_from_text ⟨List.replicate 10 ' '⟩ ≠ .error msg := by
  refine ⟨rfl, fun msg h => ?_⟩
  rw [show extract_elements_from_text ⟨List.replicate 10 ' '⟩ = .ok [.paragraph ""] from rfl] at h
  cases h

/-- C9 amended: extraction never returns an empty element list, and an input
that strips to the empty string raises unless the single-line short-circuit
applies (which returns one empty paragraph instead): every multi-line
whitespace-only input is an error. -/
theorem c9_amended (text : String) :
    (∀ l, extract_elements_from_text text = .ok l → l ≠ []) ∧
    (pyStripL text.toList = [] → (splitOnChar '\n' text.toList).length ≠ 1 →
      ∃ msg, extract_elements_from_text text = .error msg) := by
  constructor
  · intro l hl
    simp only [extract_elements_from_text] at hl
    split at hl
    · cases hl
    · split at hl
      · injection hl with h; subst h; simp
      · split at hl
        · injection hl with h; subst h; simp
        · split at hl
          · injection hl with h; subst h; assumption
          · split at hl
            · injection hl with h; subst h; simp
            · cases hl
  · intro hstrip hlines
    by_cases hlen : text.length < 10
    · exact ⟨"Text too short for meaningful extraction",
        by simp [extract_elements_from_text, hlen]⟩
    · have hall : ∀ c ∈ text.toList, isSpace c = true := all_space_of_pyStripL_nil hstrip
      have hlow : ∀ c ∈ text.toList.map pyLower, isSpace c = true := by
        intro c hc
        rcases List.mem_map.mp hc with ⟨a, ha, rfl⟩
        rw [pyLower_space (hall a ha)]
        exact hall a ha
      have hc1 : containsSub (text.toList.map pyLower) "unable to".toList = false := by
        rw [show "unable to".toList = 'u' :: "nable to".toList from rfl]
        exact containsSub_space_false hlow (by decide)
      have hml : ¬((splitOnChar '\n' text.toList).length = 1 ∧
          text.toList.any (fun c => c = '#' || c = '|' || c = '-' || c = '*') = false) :=
        fun hp => hlines hp.1
      have hno : ¬((containsSub (text.toList.map pyLower) "unable to".toList &&
          containsSub (text.toList.map pyLower) "process".toList &&
          containsSub (text.toList.map pyLower) "file".toList) = true) := by
        rw [hc1]
        simp
      have hlines_blank : ∀ l ∈ splitOnChar '\n' text.toList, pyStripL l = [] := by
        intro l hl
        exact pyStripL_eq_nil (fun c hc => hall c (mem_of_mem_splitOnChar hl hc))
      have hproc : processLines (splitOnChar '\n' text.toList) = [] := by
        unfold processLines
        rw [runLines_all_blank _ hlines_blank]
        rfl
      have hproc2 : processLines (splitOnChar '\n' text.data) = [] := hproc
      have hstrip2 : pyStripL text.data = [] := hstrip
      refine ⟨"No elements could be extracted", ?_⟩
      simp only [extract_elements_from_text]
      rw [if_neg hlen, if_neg hml, if_neg hno]
      simp [hproc2, hstrip2]

/-- C9 amended, witness: a nonempty extraction at a plain paragraph and the
error at a concrete multi-line whitespace-only input. -/
theorem c9_amended_witness :
    ([Descriptor.paragraph "hello there"] ≠ []) ∧
    ∃ msg, extract_elements_from_text " \n " = .error msg :=
  ⟨(c9_amended "hello there").1 [Descriptor.paragraph "hello there"] (by rfl),
   (c9_amended " \n ").2 (by decide) (by decide)⟩

/-- C10 counterexample: rendering pads a short table row in place, so the
element list of the returned document differs from the element list the
document held before rendering — more than the markdown field changes. -/
theorem c10_counterexample :
    (renderMarkdown ⟨"c", [.table ["A", "B"] [["x"]]], none, 0⟩).elements =
      [.table ["A", "B"] [["x", ""]]] ∧
    (renderMarkdown ⟨"c", [.table ["A", "B"] [["x"]]], none, 0⟩).elements ≠
      [.table ["A", "B"] [["x"]]] := by
  exact ⟨rfl, by decide⟩

/-- C10 amended: `render_markdown` always preserves the checksum and
processed-at timestamp and sets the markdown field, and it preserves the
element list whenever no table row is shorter than its header row (short
rows are padded in place). -/
theorem c10_amended (d : Document) :
    (renderMarkdown d).checksum = d.checksum ∧
    (renderMarkdown d).processedAt = d.processedAt ∧
    (∃ s, (renderMarkdown d).markdown = some s) ∧
    ((∀ e ∈ d.elements, noShortRows e = true) → (renderMarkdown d).elements = d.elements) := by
  refine ⟨rfl, rfl, ⟨(d.elements.foldl renderStep ("", [])).1, rfl⟩, ?_⟩
  intro h
  show (d.elements.foldl renderStep ("", [])).2 = d.elements
  rw [foldl_renderStep_snd]
  have he : ∀ e ∈ d.elements, postElem e = id e := fun e hm => postElem_eq_self (h e hm)
  rw [List.map_congr_left he, List.map_id]
  simp

/-- C10 amended, witness at a document whose table rows are all long
enough. -/
theorem c10_amended_witness :
    (renderMarkdown ⟨"c", [.table ["A"] [["x", "y"], ["z"]]], none, 0⟩).elements =
      [.table ["A"] [["x", "y"], ["z"]]] :=
  (c10_amended ⟨"c", [.table ["A"] [["x", "y"], ["z"]]], none, 0⟩).2.2.2 (by decide)

end IntakeDoc
